import Mathlib

/-!
# Verification of the console.cpp raw-mode line editor

Shallow embedding of the working implementation in `examples/console.cpp`:
the Unicode codec (`getchar32`, `append_utf8`), the width probe
(`put_codepoint`), and the two readline paths
(`console_readline_advanced`, `console_readline_simple`).

Conventions of the embedding:
* A stream of input units (the results of `getchar32`) is a `List Nat`;
  reaching the end of the list models `getwchar`/`getchar32` returning WEOF.
* The line buffer is a `List Nat` of UTF-8 bytes in order.
* The width stack `std::vector<int> widths` is a `List Nat` used as a stack:
  the head is the most recently pushed entry (`push_back` = cons,
  `back`/`pop_back` = head/tail).  Widths pushed by the loop are clamped
  to be nonnegative before the push, hence `Nat`.
* Display writes (ANSI output, cursor movement) are side effects on the
  terminal and are not part of the state; the display *mode* bookkeeping
  (`console_state.display.mode`) is modelled because
  `console_set_display_mode` mutates it.
* `wcwidth`/the terminal probe are external collaborators; the composite
  `put_codepoint(..., estimate_width(cp))` used by the editing loop is
  abstracted as a width oracle `w : Nat → Int`.
-/

/-- Display modes, from `console_mode_t` in `examples/simple.h`. -/
inductive Mode where
  | reset
  | prompt
  | input
  | error
deriving DecidableEq, Repr

/-- The process-wide console state relevant to the core:
`io.multiline`, `display.mode` and `display.advanced`
(from `struct ConsoleState` in `examples/simple.h`). -/
structure ConsoleSt where
  multiline : Bool
  mode : Mode
  advanced : Bool
deriving DecidableEq, Repr

/-- `console_set_display_mode`: write the ANSI code and record the mode
iff advanced display is on and the requested mode differs. -/
def console_set_display_mode (m : Mode) (cs : ConsoleSt) : ConsoleSt :=
  if cs.advanced ∧ cs.mode ≠ m then { cs with mode := m } else cs

/-- `getchar32` on a platform with 16-bit `wchar_t`
(the `WCHAR_MAX == 0xFFFF` branch): reads one unit; a high surrogate
consumes a second unit and either combines the pair or yields U+FFFD.
Returns the decoded code point and the remaining unit stream;
`none` models WEOF on the first read. -/
def getchar32_16 : List Nat → Option (Nat × List Nat)
  | [] => none
  | wc :: rest =>
    if 0xD800 ≤ wc ∧ wc ≤ 0xDBFF then
      match rest with
      | [] =>
        -- the second getwchar returns WEOF, which is not a low surrogate,
        -- so control falls through to the invalid-surrogate check
        some (0xFFFD, [])
      | low :: rest2 =>
        if 0xDC00 ≤ low ∧ low ≤ 0xDFFF then
          some (((wc &&& 0x03FF) <<< 10) + (low &&& 0x03FF) + 0x10000, rest2)
        else
          some (0xFFFD, rest2)
    else if 0xD800 ≤ wc ∧ wc ≤ 0xDFFF then
      some (0xFFFD, rest)
    else
      some (wc, rest)

/-- `append_utf8`: append the UTF-8 encoding of `ch` to `out`
(1–4 bytes depending on the range; out-of-range code points append
nothing). -/
def append_utf8 (ch : Nat) (out : List Nat) : List Nat :=
  if ch ≤ 0x7F then
    out ++ [ch]
  else if ch ≤ 0x7FF then
    out ++ [0xC0 ||| ((ch >>> 6) &&& 0x1F), 0x80 ||| (ch &&& 0x3F)]
  else if ch ≤ 0xFFFF then
    out ++ [0xE0 ||| ((ch >>> 12) &&& 0x0F), 0x80 ||| ((ch >>> 6) &&& 0x3F),
            0x80 ||| (ch &&& 0x3F)]
  else if ch ≤ 0x10FFFF then
    out ++ [0xF0 ||| ((ch >>> 18) &&& 0x07), 0x80 ||| ((ch >>> 12) &&& 0x3F),
            0x80 ||| ((ch >>> 6) &&& 0x3F), 0x80 ||| (ch &&& 0x3F)]
  else
    out

/-- Modelled from the spec: strict UTF-8 decoding of one encoded code point.
The repository performs byte-level decoding in the C library (`getwchar`
under a UTF-8 locale), outside `src/`; this definition follows the spec's
"standard UTF-8 length/shift rules for ranges ≤0x7F, ≤0x7FF, ≤0xFFFF,
≤0x10FFFF" (§4.1), rejecting malformed, overlong, surrogate and
out-of-range sequences. -/
def decode_utf8 : List Nat → Option Nat
  | [b0] =>
    if b0 ≤ 0x7F then some b0 else none
  | [b0, b1] =>
    let v := (b0 - 0xC0) * 0x40 + (b1 - 0x80)
    if 0xC0 ≤ b0 ∧ b0 ≤ 0xDF ∧ 0x80 ≤ b1 ∧ b1 ≤ 0xBF ∧ 0x80 ≤ v then
      some v
    else none
  | [b0, b1, b2] =>
    let v := (b0 - 0xE0) * 0x1000 + (b1 - 0x80) * 0x40 + (b2 - 0x80)
    if 0xE0 ≤ b0 ∧ b0 ≤ 0xEF ∧ 0x80 ≤ b1 ∧ b1 ≤ 0xBF ∧ 0x80 ≤ b2 ∧ b2 ≤ 0xBF
        ∧ 0x800 ≤ v ∧ ¬(0xD800 ≤ v ∧ v ≤ 0xDFFF) then
      some v
    else none
  | [b0, b1, b2, b3] =>
    let v := (b0 - 0xF0) * 0x40000 + (b1 - 0x80) * 0x1000 + (b2 - 0x80) * 0x40
              + (b3 - 0x80)
    if 0xF0 ≤ b0 ∧ b0 ≤ 0xF7 ∧ 0x80 ≤ b1 ∧ b1 ≤ 0xBF ∧ 0x80 ≤ b2 ∧ b2 ≤ 0xBF
        ∧ 0x80 ≤ b3 ∧ b3 ≤ 0xBF ∧ 0x10000 ≤ v ∧ v ≤ 0x10FFFF then
      some v
    else none
  | _ => none

/-- `put_codepoint`, with the terminal interaction made explicit:
`teletype` says whether a direct terminal handle is available, `c1`/`p1`
are the item count and `(row, col)` values produced by parsing the first
cursor-position reply, `c2`/`p2` those of the second, and `ws_col` the
column count from the window-size query.  Returns the width the function
would return; the byte writes are display effects. -/
def put_codepoint (utf8_codepoint : List Nat) (expected_width : Int)
    (teletype : Bool) (c1 : Nat) (p1 : Int × Int) (c2 : Nat) (p2 : Int × Int)
    (ws_col : Int) : Int :=
  if 0 ≤ expected_width ∨ ¬teletype then
    expected_width
  else
    let result_count := c1 + c2
    if result_count ≠ 4 then
      expected_width
    else
      let width := p2.2 - p1.2
      if width < 0 then width + ws_col else width

-- The advanced readline state machine ------------------------------------

/-- The loop-local state of `console_readline_advanced`: the line buffer,
the width stack, the `is_special_char` flag, and the threaded console
state. -/
structure AdvState where
  line : List Nat
  widths : List Nat
  special : Bool
  cs : ConsoleSt
deriving DecidableEq, Repr

/-- The `if (is_special_char) { ... }` block at the top of each loop
iteration: restore the INPUT display mode, redraw the trailing character,
and clear the flag. -/
def clearSpecial (st : AdvState) : AdvState :=
  if st.special then
    { st with cs := console_set_display_mode Mode.input st.cs, special := false }
  else st

/-- The end-of-iteration check: if the line now ends in `\` or `/`,
switch to the PROMPT display mode, re-render the marker, and set
`is_special_char`. -/
def tailCheck (st : AdvState) : AdvState :=
  if st.line.getLast? = some 92 ∨ st.line.getLast? = some 47 then
    { st with cs := console_set_display_mode Mode.prompt st.cs, special := true }
  else st

/-- The ordinary-character branch: append the UTF-8 encoding of `c`,
obtain the display width (the oracle `w` abstracts
`put_codepoint(..., estimate_width(c))`), clamp a negative result to 0,
and push it. -/
def appendStep (w : Nat → Int) (c : Nat) (st : AdvState) : AdvState :=
  let line' := append_utf8 c st.line
  let width := w c
  let wn : Nat := if width < 0 then 0 else width.toNat
  { st with line := line', widths := wn :: st.widths }

/-- The backward scan of `pop_back_utf8_char`: starting at `pos`
(the index of the last byte) step back over at most three UTF-8
continuation bytes, stopping early at a non-continuation byte or at
index 0. -/
def utf8_back_pos (line : List Nat) : Nat → Nat → Nat
  | pos, 0 => pos
  | pos, fuel + 1 =>
    if pos = 0 then pos
    else if line.getD pos 0 &&& 0xC0 ≠ 0x80 then pos
    else utf8_back_pos line (pos - 1) fuel

/-- `pop_back_utf8_char`: remove the last UTF-8 character (up to four
bytes) from the line. -/
def pop_back_utf8_char (line : List Nat) : List Nat :=
  if line = [] then line
  else line.take (utf8_back_pos line (line.length - 1) 3)

/-- The backspace `do { ... } while` loop: pop the top width entry, erase
its columns from the display, drop the last UTF-8 character, and repeat
while the popped width was zero and the stack is non-empty. -/
def backspaceLoop : List Nat → List Nat → List Nat × List Nat
  | line, [] => (line, [])
  | line, count :: rest =>
    let line' := pop_back_utf8_char line
    if count = 0 ∧ rest ≠ [] then backspaceLoop line' rest
    else (line', rest)

/-- The backspace branch: a no-op when the width stack is empty. -/
def backspaceStep (st : AdvState) : AdvState :=
  if st.widths = [] then st
  else
    let r := backspaceLoop st.line st.widths
    { st with line := r.1, widths := r.2 }

/-- A unit terminates an ANSI escape sequence when it is in `A`–`Z`,
`a`–`z`, or is `~`. -/
def escTerm (c : Nat) : Prop :=
  (65 ≤ c ∧ c ≤ 90) ∨ (97 ≤ c ∧ c ≤ 122) ∨ c = 126

instance (c : Nat) : Decidable (escTerm c) := by
  unfold escTerm; infer_instance

/-- The inner discard loop of the escape branch: consume units up to and
including the first terminator; WEOF (end of the list) also exits the
loop.  Returns the remaining unit stream. -/
def discardEscape : List Nat → List Nat
  | [] => []
  | c :: rest => if escTerm c then rest else discardEscape rest

/-- The whole escape branch, seen from the unit stream: read the unit
after ESC (WEOF, i.e. an empty stream, leaves nothing to consume); if it
is `[` or a second ESC, additionally run the discard loop. -/
def escRemainder : List Nat → List Nat
  | [] => []
  | code :: rest2 => if code = 91 ∨ code = 27 then discardEscape rest2 else rest2

/-- The main loop of `console_readline_advanced`, consuming decoded input
units.  Returns the state at loop exit together with the
`end_of_stream` flag.  The end of the input list models WEOF. -/
def runAdvanced (w : Nat → Int) (inputs : List Nat) (st : AdvState) :
    AdvState × Bool :=
  match inputs with
  | [] => (st, true)
  | c :: rest =>
    if c = 13 ∨ c = 10 then (st, false)
    else if c = 4 then (st, true)
    else
      let st1 := clearSpecial st
      if c = 27 then
        -- reading WEOF directly after ESC skips the discard and the next
        -- loop iteration then exits on WEOF, which coincides with
        -- `runAdvanced w [] (tailCheck st1)`
        runAdvanced w (escRemainder rest) (tailCheck st1)
      else if c = 8 ∨ c = 127 then
        runAdvanced w rest (tailCheck (backspaceStep st1))
      else
        runAdvanced w rest (tailCheck (appendStep w c st1))
termination_by inputs.length
decreasing_by
  · simp only [List.length_cons]
    have hd : ∀ l : List Nat, (discardEscape l).length ≤ l.length := by
      intro l
      induction l with
      | nil => simp [discardEscape]
      | cons c2 rest2 ih =>
        simp only [discardEscape]
        split
        · simp
        · exact Nat.le_succ_of_le ih
    have he : ∀ l : List Nat, (escRemainder l).length ≤ l.length := by
      intro l
      cases l with
      | nil => simp [escRemainder]
      | cons code rest2 =>
        simp only [escRemainder, List.length_cons]
        split
        · exact Nat.le_succ_of_le (hd rest2)
        · exact Nat.le_succ _
    exact Nat.lt_succ_of_le (he _)
  · simp
  · simp

/-- The resolution block after the loop of `console_readline_advanced`:
handle a pending continuation marker, or append the final newline.
Returns the line handed to the caller, the `has_more` boolean, and the
console state. -/
def resolveLine (st : AdvState) (eos : Bool) : List Nat × Bool × ConsoleSt :=
  let has_more := st.cs.multiline
  if st.special then
    let last := st.line.getLastD 0
    let l1 := st.line.dropLast
    if last = 92 then
      (l1 ++ [10], !has_more, st.cs)
    else if l1.length = 1 ∧ l1.getLast? = some 32 then
      ([], false, st.cs)
    else
      (l1, false, st.cs)
  else if eos then
    (st.line, false, st.cs)
  else
    (st.line ++ [10], has_more, st.cs)

/-- `console_readline_advanced`: clear the line and width stack, run the
editing loop over the decoded input units, and resolve the result. -/
def console_readline_advanced (w : Nat → Int) (inputs : List Nat)
    (cs : ConsoleSt) : List Nat × Bool × ConsoleSt :=
  let r := runAdvanced w inputs ⟨[], [], false, cs⟩
  resolveLine r.1 r.2

-- The simple (non-interactive) path --------------------------------------

/-- `console_input_character`: read one character from `std::cin`
(`none` models a failed read); on failure set the ERROR display mode and
return EOF (−1). -/
def console_input_character (inp : Option Nat) (cs : ConsoleSt) :
    Int × ConsoleSt :=
  match inp with
  | none => (-1, console_set_display_mode Mode.error cs)
  | some ch => ((ch : Int), cs)

/-- `console_input_control`: read the character after ESC; `m` toggles
the persistent multiline flag, anything else (or EOF) is a no-op. -/
def console_input_control (inp : Option Nat) (cs : ConsoleSt) :
    Int × ConsoleSt :=
  let r := console_input_character inp cs
  if r.1 = -1 then (-1, r.2)
  else if r.1 = 109 then (r.1, { r.2 with multiline := !r.2.multiline })
  else (r.1, r.2)

/-- `console_input_string`: blocking `std::getline` (`none` models a bad
stream or EOF); on failure set the ERROR display mode, clear the line and
report failure. -/
def console_input_string (res : Option (List Nat)) (cs : ConsoleSt) :
    Bool × List Nat × ConsoleSt :=
  match res with
  | none => (false, [], console_set_display_mode Mode.error cs)
  | some l => (true, l, cs)

/-- `console_readline_simple`: whole-line blocking read; a trailing ESC
invokes the control handler (`ctrl` is the character it would read);
in single-line mode a newline is appended for consistency. -/
def console_readline_simple (res : Option (List Nat)) (ctrl : Option Nat)
    (cs : ConsoleSt) : Bool × List Nat × ConsoleSt :=
  let r := console_input_string res cs
  if r.1 = false then (false, r.2.1, r.2.2)
  else
    let line := r.2.1
    if line = [] then (true, line, console_set_display_mode Mode.error r.2.2)
    else
      let cs2 := if line.getLast? = some 27 then
          (console_input_control ctrl r.2.2).2
        else r.2.2
      let line2 := if cs2.multiline then line else line ++ [10]
      (true, line2, cs2)

-- Derived notions used by the statements ----------------------------------

/-- The number of code points represented in a UTF-8 byte buffer: one per
non-continuation byte. -/
def countCodepoints (l : List Nat) : Nat :=
  l.countP (fun b => b &&& 0xC0 != 0x80)

/-- The representation invariant tying Line to WidthStack: the line is a
concatenation of UTF-8 encodings of in-range code points, and the width
stack has exactly one entry per code point. -/
def LineInv (line widths : List Nat) : Prop :=
  ∃ cps : List Nat, (∀ c ∈ cps, c ≤ 0x10FFFF)
    ∧ line = (cps.map (fun c => append_utf8 c [])).flatten
    ∧ widths.length = cps.length

/-- A unit that takes the ordinary append branch of the loop: not CR/LF,
not EOT, not ESC, not backspace/DEL. -/
def Ordinary (u : Nat) : Prop :=
  u ≠ 13 ∧ u ≠ 10 ∧ u ≠ 4 ∧ u ≠ 27 ∧ u ≠ 8 ∧ u ≠ 127

instance (u : Nat) : Decidable (Ordinary u) := by
  unfold Ordinary; infer_instance

/-- One loop iteration on an ordinary unit. -/
def ordinaryStep (w : Nat → Int) (u : Nat) (st : AdvState) : AdvState :=
  tailCheck (appendStep w u (clearSpecial st))

/-- The loop state after appending a sequence of ordinary units. -/
def applyAppends (w : Nat → Int) (cps : List Nat) (st : AdvState) : AdvState :=
  cps.foldl (fun s u => ordinaryStep w u s) st

/-- Width oracle of a terminal where U+0301 (combining acute accent) has
display width 0 and everything else width 1, as `wcwidth` reports. -/
def wCombining : Nat → Int := fun c => if c = 0x301 then 0 else 1

/-- A quiet console state: multiline off, display reset, simple display. -/
def csInit : ConsoleSt := ⟨false, Mode.reset, false⟩

/-- The state at the start of a read: empty line and width stack. -/
def stInit (cs : ConsoleSt) : AdvState := ⟨[], [], false, cs⟩

-- Bitwise-to-arithmetic bridging lemmas ----------------------------------

lemma and_mask_63 (x : Nat) : x &&& 63 = x % 64 :=
  Nat.and_pow_two_sub_one_eq_mod x 6

lemma and_mask_31 (x : Nat) : x &&& 31 = x % 32 :=
  Nat.and_pow_two_sub_one_eq_mod x 5

lemma and_mask_15 (x : Nat) : x &&& 15 = x % 16 :=
  Nat.and_pow_two_sub_one_eq_mod x 4

lemma and_mask_7 (x : Nat) : x &&& 7 = x % 8 :=
  Nat.and_pow_two_sub_one_eq_mod x 3

lemma and_mask_1023 (x : Nat) : x &&& 1023 = x % 1024 :=
  Nat.and_pow_two_sub_one_eq_mod x 10

lemma shiftRight_6 (x : Nat) : x >>> 6 = x / 64 :=
  Nat.shiftRight_eq_div_pow x 6

lemma shiftRight_12 (x : Nat) : x >>> 12 = x / 4096 :=
  Nat.shiftRight_eq_div_pow x 12

lemma shiftRight_18 (x : Nat) : x >>> 18 = x / 262144 :=
  Nat.shiftRight_eq_div_pow x 18

lemma shiftLeft_10 (x : Nat) : x <<< 10 = x * 1024 :=
  Nat.shiftLeft_eq x 10

lemma or_192 : ∀ y, y < 32 → 192 ||| y = 192 + y := by decide

lemma or_224 : ∀ y, y < 16 → 224 ||| y = 224 + y := by decide

lemma or_240 : ∀ y, y < 8 → 240 ||| y = 240 + y := by decide

lemma or_128 : ∀ y, y < 64 → 128 ||| y = 128 + y := by decide

lemma cont_byte_and : ∀ y, y < 64 → (128 ||| y) &&& 192 = 128 := by decide

lemma lead1_and : ∀ c, c < 128 → c &&& 192 ≠ 128 := by decide

lemma lead2_and : ∀ y, y < 32 → (192 ||| y) &&& 192 = 192 := by decide

lemma lead3_and : ∀ y, y < 16 → (224 ||| y) &&& 192 = 192 := by decide

lemma lead4_and : ∀ y, y < 8 → (240 ||| y) &&& 192 = 192 := by decide

lemma and_63_lt (x : Nat) : x &&& 63 < 64 := by
  rw [and_mask_63]; exact Nat.mod_lt _ (by norm_num)

lemma and_31_lt (x : Nat) : x &&& 31 < 32 := by
  rw [and_mask_31]; exact Nat.mod_lt _ (by norm_num)

lemma and_15_lt (x : Nat) : x &&& 15 < 16 := by
  rw [and_mask_15]; exact Nat.mod_lt _ (by norm_num)

lemma and_7_lt (x : Nat) : x &&& 7 < 8 := by
  rw [and_mask_7]; exact Nat.mod_lt _ (by norm_num)

-- List facts --------------------------------------------------------------

lemma discardEscape_length_le (l : List Nat) :
    (discardEscape l).length ≤ l.length := by
  induction l with
  | nil => simp [discardEscape]
  | cons c rest ih =>
    simp only [discardEscape]
    split
    · simp
    · exact Nat.le_succ_of_le ih

lemma escRemainder_length_le (l : List Nat) :
    (escRemainder l).length ≤ l.length := by
  cases l with
  | nil => simp [escRemainder]
  | cons code rest2 =>
    simp only [escRemainder, List.length_cons]
    split
    · exact Nat.le_succ_of_le (discardEscape_length_le rest2)
    · exact Nat.le_succ _

lemma mem_discardEscape {u : Nat} {l : List Nat} (h : u ∈ discardEscape l) :
    u ∈ l := by
  induction l with
  | nil => simp [discardEscape] at h
  | cons a as ih =>
    simp only [discardEscape] at h
    split at h
    · exact List.mem_cons_of_mem _ h
    · exact List.mem_cons_of_mem _ (ih h)

lemma mem_escRemainder {u : Nat} {l : List Nat} (h : u ∈ escRemainder l) :
    u ∈ l := by
  cases l with
  | nil => simp [escRemainder] at h
  | cons code rest2 =>
    simp only [escRemainder] at h
    split at h
    · exact List.mem_cons_of_mem _ (mem_discardEscape h)
    · exact List.mem_cons_of_mem _ h

lemma discardEscape_append (seq : List Nat) (c : Nat) (rest : List Nat)
    (hseq : ∀ u ∈ seq, ¬escTerm u) (hc : escTerm c) :
    discardEscape (seq ++ c :: rest) = rest := by
  induction seq with
  | nil => simp [discardEscape, hc]
  | cons a as ih =>
    simp only [List.cons_append, discardEscape]
    rw [if_neg (hseq a (by simp))]
    exact ih (fun u hu => hseq u (by simp [hu]))

lemma getD_append_idx (l r : List Nat) (j : Nat) :
    (l ++ r).getD (l.length + j) 0 = r.getD j 0 := by
  rw [List.getD_append_right l r 0 (l.length + j) (Nat.le_add_right _ _)]
  congr 1
  omega

lemma take_len_append (l r : List Nat) : (l ++ r).take l.length = l := by
  rw [List.take_append_of_le_length (le_refl _), List.take_length]

-- Unfolding lemmas for the well-founded recursion -------------------------

lemma runAdvanced_nil (w : Nat → Int) (st : AdvState) :
    runAdvanced w [] st = (st, true) := by
  rw [runAdvanced]

lemma runAdvanced_cons (w : Nat → Int) (c : Nat) (rest : List Nat)
    (st : AdvState) :
    runAdvanced w (c :: rest) st =
      (if c = 13 ∨ c = 10 then (st, false)
      else if c = 4 then (st, true)
      else if c = 27 then
        runAdvanced w (escRemainder rest) (tailCheck (clearSpecial st))
      else if c = 8 ∨ c = 127 then
        runAdvanced w rest (tailCheck (backspaceStep (clearSpecial st)))
      else
        runAdvanced w rest (tailCheck (appendStep w c (clearSpecial st)))) := by
  rw [runAdvanced]

-- Projections of the step functions ---------------------------------------

lemma setMode_multiline (m : Mode) (cs : ConsoleSt) :
    (console_set_display_mode m cs).multiline = cs.multiline := by
  unfold console_set_display_mode
  split <;> rfl

lemma clearSpecial_multiline (st : AdvState) :
    (clearSpecial st).cs.multiline = st.cs.multiline := by
  unfold clearSpecial
  split
  · exact setMode_multiline _ _
  · rfl

lemma tailCheck_multiline (st : AdvState) :
    (tailCheck st).cs.multiline = st.cs.multiline := by
  unfold tailCheck
  split
  · exact setMode_multiline _ _
  · rfl

lemma appendStep_cs (w : Nat → Int) (c : Nat) (st : AdvState) :
    (appendStep w c st).cs = st.cs := rfl

lemma backspaceStep_cs (st : AdvState) :
    (backspaceStep st).cs = st.cs := by
  unfold backspaceStep
  split <;> rfl

lemma resolveLine_cs (st : AdvState) (eos : Bool) :
    (resolveLine st eos).2.2 = st.cs := by
  simp only [resolveLine]
  split
  · split
    · rfl
    · split <;> rfl
  · split <;> rfl

lemma clearSpecial_line (st : AdvState) : (clearSpecial st).line = st.line := by
  unfold clearSpecial
  split <;> rfl

lemma clearSpecial_widths (st : AdvState) :
    (clearSpecial st).widths = st.widths := by
  unfold clearSpecial
  split <;> rfl

lemma tailCheck_line (st : AdvState) : (tailCheck st).line = st.line := by
  unfold tailCheck
  split <;> rfl

lemma tailCheck_widths (st : AdvState) : (tailCheck st).widths = st.widths := by
  unfold tailCheck
  split <;> rfl

lemma runAdvanced_multiline_aux (w : Nat → Int) :
    ∀ n (inputs : List Nat) (st : AdvState), inputs.length ≤ n →
      ((runAdvanced w inputs st).1).cs.multiline = st.cs.multiline := by
  intro n
  induction n with
  | zero =>
    intro inputs st h
    have he : inputs = [] := List.eq_nil_of_length_eq_zero (Nat.le_zero.mp h)
    subst he
    rw [runAdvanced_nil]
  | succ n ih =>
    intro inputs st h
    match inputs with
    | [] => rw [runAdvanced_nil]
    | c :: rest =>
      simp only [List.length_cons] at h
      rw [runAdvanced_cons]
      split
      · rfl
      · split
        · rfl
        · split
          · rw [ih _ _ (le_trans (escRemainder_length_le rest) (by omega)),
              tailCheck_multiline, clearSpecial_multiline]
          · split
            · rw [ih _ _ (by omega), tailCheck_multiline, backspaceStep_cs,
                clearSpecial_multiline]
            · rw [ih _ _ (by omega), tailCheck_multiline, appendStep_cs,
                clearSpecial_multiline]

lemma runAdvanced_multiline (w : Nat → Int) (inputs : List Nat)
    (st : AdvState) :
    ((runAdvanced w inputs st).1).cs.multiline = st.cs.multiline :=
  runAdvanced_multiline_aux w inputs.length inputs st (le_refl _)

-- The backward UTF-8 scan ---------------------------------------------------

lemma utf8_back_pos_fuel0 (line : List Nat) (pos : Nat) :
    utf8_back_pos line pos 0 = pos := rfl

lemma utf8_back_pos_pos0 (line : List Nat) (fuel : Nat) :
    utf8_back_pos line 0 fuel = 0 := by
  cases fuel with
  | zero => rfl
  | succ n => simp [utf8_back_pos]

lemma utf8_back_pos_cont (line : List Nat) (pos fuel : Nat)
    (hpos : pos ≠ 0) (hbyte : line.getD pos 0 &&& 0xC0 = 0x80) :
    utf8_back_pos line pos (fuel + 1) = utf8_back_pos line (pos - 1) fuel := by
  simp only [utf8_back_pos]
  rw [if_neg hpos, if_neg (fun hcontra => hcontra hbyte)]

lemma utf8_back_pos_stop (line : List Nat) (pos fuel : Nat)
    (hbyte : line.getD pos 0 &&& 0xC0 ≠ 0x80) :
    utf8_back_pos line pos (fuel + 1) = pos := by
  simp only [utf8_back_pos]
  by_cases hpos : pos = 0
  · rw [if_pos hpos, hpos]
  · rw [if_neg hpos, if_pos hbyte]

lemma utf8_back_pos_last_step (l r : List Nat) (fuel : Nat)
    (hbyte : r.getD 0 0 &&& 0xC0 ≠ 0x80) :
    utf8_back_pos (l ++ r) l.length (fuel + 1) = l.length := by
  by_cases hl : l.length = 0
  · rw [hl, utf8_back_pos_pos0]
  · apply utf8_back_pos_stop
    have hb : (l ++ r).getD l.length 0 = r.getD 0 0 := by
      simpa using getD_append_idx l r 0
    rw [hb]
    exact hbyte

/-- `pop_back_utf8_char` removes exactly the UTF-8 encoding of the last
appended in-range code point. -/
lemma pop_back_append_enc (l : List Nat) (c : Nat) (hc : c ≤ 0x10FFFF) :
    pop_back_utf8_char (l ++ append_utf8 c []) = l := by
  by_cases hc1 : c ≤ 0x7F
  · simp only [append_utf8, if_pos hc1, List.nil_append]
    unfold pop_back_utf8_char
    rw [if_neg (by simp)]
    have hlen : (l ++ [c]).length - 1 = l.length := by simp
    rw [hlen, utf8_back_pos_last_step l [c] 2 (by
      simpa using lead1_and c (by omega)), take_len_append]
  · by_cases hc2 : c ≤ 0x7FF
    · simp only [append_utf8, if_neg hc1, if_pos hc2, List.nil_append]
      unfold pop_back_utf8_char
      rw [if_neg (by simp)]
      have hlen :
          (l ++ [192 ||| (c >>> 6 &&& 31), 128 ||| (c &&& 63)]).length - 1
          = l.length + 1 := by simp
      rw [hlen]
      rw [utf8_back_pos_cont _ _ _ (by omega) (by
        rw [show l.length + 1 = l.length + 1 from rfl]
        have hb := getD_append_idx l [192 ||| (c >>> 6 &&& 31), 128 ||| (c &&& 63)] 1
        rw [hb]
        simpa using cont_byte_and _ (and_63_lt c))]
      rw [show l.length + 1 - 1 = l.length from rfl]
      rw [utf8_back_pos_last_step l _ 1 (by
        have h0 := lead2_and _ (and_31_lt (c >>> 6))
        simpa using fun hcontra => by rw [h0] at hcontra ; exact absurd hcontra (by norm_num)),
        take_len_append]
    · by_cases hc3 : c ≤ 0xFFFF
      · simp only [append_utf8, if_neg hc1, if_neg hc2, if_pos hc3,
          List.nil_append]
        unfold pop_back_utf8_char
        rw [if_neg (by simp)]
        have hlen :
            (l ++ [224 ||| (c >>> 12 &&& 15), 128 ||| (c >>> 6 &&& 63),
              128 ||| (c &&& 63)]).length - 1 = l.length + 2 := by simp
        rw [hlen]
        rw [utf8_back_pos_cont _ _ _ (by omega) (by
          have hb := getD_append_idx l [224 ||| (c >>> 12 &&& 15),
            128 ||| (c >>> 6 &&& 63), 128 ||| (c &&& 63)] 2
          rw [hb]
          simpa using cont_byte_and _ (and_63_lt c))]
        rw [show l.length + 2 - 1 = l.length + 1 from rfl]
        rw [utf8_back_pos_cont _ _ _ (by omega) (by
          have hb := getD_append_idx l [224 ||| (c >>> 12 &&& 15),
            128 ||| (c >>> 6 &&& 63), 128 ||| (c &&& 63)] 1
          rw [hb]
          simpa using cont_byte_and _ (and_63_lt (c >>> 6)))]
        rw [show l.length + 1 - 1 = l.length from rfl]
        rw [utf8_back_pos_last_step l _ 0 (by
          have h0 := lead3_and _ (and_15_lt (c >>> 12))
          simpa using fun hcontra => by rw [h0] at hcontra ; exact absurd hcontra (by norm_num)),
          take_len_append]
      · simp only [append_utf8, if_neg hc1, if_neg hc2, if_neg hc3,
          if_pos hc, List.nil_append]
        unfold pop_back_utf8_char
        rw [if_neg (by simp)]
        have hlen :
            (l ++ [240 ||| (c >>> 18 &&& 7), 128 ||| (c >>> 12 &&& 63),
              128 ||| (c >>> 6 &&& 63), 128 ||| (c &&& 63)]).length - 1
            = l.length + 3 := by simp
        rw [hlen]
        rw [utf8_back_pos_cont _ _ _ (by omega) (by
          have hb := getD_append_idx l [240 ||| (c >>> 18 &&& 7),
            128 ||| (c >>> 12 &&& 63), 128 ||| (c >>> 6 &&& 63),
            128 ||| (c &&& 63)] 3
          rw [hb]
          simpa using cont_byte_and _ (and_63_lt c))]
        rw [show l.length + 3 - 1 = l.length + 2 from rfl]
        rw [utf8_back_pos_cont _ _ _ (by omega) (by
          have hb := getD_append_idx l [240 ||| (c >>> 18 &&& 7),
            128 ||| (c >>> 12 &&& 63), 128 ||| (c >>> 6 &&& 63),
            128 ||| (c &&& 63)] 2
          rw [hb]
          simpa using cont_byte_and _ (and_63_lt (c >>> 6)))]
        rw [show l.length + 2 - 1 = l.length + 1 from rfl]
        rw [utf8_back_pos_cont _ _ _ (by omega) (by
          have hb := getD_append_idx l [240 ||| (c >>> 18 &&& 7),
            128 ||| (c >>> 12 &&& 63), 128 ||| (c >>> 6 &&& 63),
            128 ||| (c &&& 63)] 1
          rw [hb]
          simpa using cont_byte_and _ (and_63_lt (c >>> 12)))]
        rw [show l.length + 1 - 1 = l.length from rfl]
        rw [utf8_back_pos_fuel0, take_len_append]

-- Counting code points and the representation invariant --------------------

lemma append_utf8_split (c : Nat) (l : List Nat) :
    append_utf8 c l = l ++ append_utf8 c [] := by
  unfold append_utf8
  split_ifs <;> simp

lemma countCodepoints_append (x y : List Nat) :
    countCodepoints (x ++ y) = countCodepoints x + countCodepoints y :=
  List.countP_append _ _ _

lemma countCodepoints_enc (c : Nat) (hc : c ≤ 0x10FFFF) :
    countCodepoints (append_utf8 c []) = 1 := by
  by_cases hc1 : c ≤ 0x7F
  · have h := lead1_and c (by omega)
    simp [countCodepoints, append_utf8, hc1, List.countP_cons, h]
  · by_cases hc2 : c ≤ 0x7FF
    · have hb0 := lead2_and _ (and_31_lt (c >>> 6))
      have hb1 := cont_byte_and _ (and_63_lt c)
      simp [countCodepoints, append_utf8, hc1, hc2, List.countP_cons, hb0, hb1]
    · by_cases hc3 : c ≤ 0xFFFF
      · have hb0 := lead3_and _ (and_15_lt (c >>> 12))
        have hb1 := cont_byte_and _ (and_63_lt (c >>> 6))
        have hb2 := cont_byte_and _ (and_63_lt c)
        simp [countCodepoints, append_utf8, hc1, hc2, hc3, List.countP_cons,
          hb0, hb1, hb2]
      · have hb0 := lead4_and _ (and_7_lt (c >>> 18))
        have hb1 := cont_byte_and _ (and_63_lt (c >>> 12))
        have hb2 := cont_byte_and _ (and_63_lt (c >>> 6))
        have hb3 := cont_byte_and _ (and_63_lt c)
        simp [countCodepoints, append_utf8, hc1, hc2, hc3, hc,
          List.countP_cons, hb0, hb1, hb2, hb3]

lemma countCodepoints_encodeAll (cps : List Nat)
    (h : ∀ c ∈ cps, c ≤ 0x10FFFF) :
    countCodepoints ((cps.map (fun c => append_utf8 c [])).flatten)
      = cps.length := by
  induction cps with
  | nil => simp [countCodepoints]
  | cons a as ih =>
    simp only [List.map_cons, List.flatten_cons, List.length_cons]
    rw [countCodepoints_append, countCodepoints_enc a (h a (by simp)),
      ih (fun c hcx => h c (by simp [hcx]))]
    omega

lemma backspaceLoop_inv (widths : List Nat) :
    ∀ (cps line : List Nat),
      (∀ c ∈ cps, c ≤ 0x10FFFF) →
      line = (cps.map (fun c => append_utf8 c [])).flatten →
      widths.length = cps.length →
      LineInv (backspaceLoop line widths).1 (backspaceLoop line widths).2 := by
  induction widths with
  | nil =>
    intro cps line hv hl hw
    have hcps : cps = [] := List.eq_nil_of_length_eq_zero hw.symm
    subst hcps
    exact ⟨[], by simp, by simpa [backspaceLoop] using hl,
      by simp [backspaceLoop]⟩
  | cons wn rest ih =>
    intro cps line hv hl hw
    have hne : cps ≠ [] := by
      intro hx
      subst hx
      simp at hw
    obtain ⟨cps', clast, hsplit⟩ : ∃ cps' clast, cps = cps' ++ [clast] :=
      ⟨cps.dropLast, cps.getLast hne,
        (List.dropLast_concat_getLast hne).symm⟩
    subst hsplit
    rw [List.map_append, List.flatten_append] at hl
    simp only [List.map_cons, List.map_nil, List.flatten_cons,
      List.flatten_nil, List.append_nil] at hl
    have hpop : pop_back_utf8_char line
        = (cps'.map (fun c => append_utf8 c [])).flatten := by
      rw [hl]
      exact pop_back_append_enc _ _ (hv clast (by simp))
    have hv' : ∀ c ∈ cps', c ≤ 0x10FFFF := fun c hcx => hv c (by simp [hcx])
    have hw' : rest.length = cps'.length := by
      simp only [List.length_cons, List.length_append, List.length_nil] at hw
      omega
    simp only [backspaceLoop]
    split
    · exact ih cps' _ hv' hpop hw'
    · exact ⟨cps', hv', hpop, hw'⟩

lemma LineInv_clearSpecial (st : AdvState) (h : LineInv st.line st.widths) :
    LineInv (clearSpecial st).line (clearSpecial st).widths := by
  rw [clearSpecial_line, clearSpecial_widths]
  exact h

lemma LineInv_tailCheck (st : AdvState) (h : LineInv st.line st.widths) :
    LineInv (tailCheck st).line (tailCheck st).widths := by
  rw [tailCheck_line, tailCheck_widths]
  exact h

lemma LineInv_appendStep (w : Nat → Int) (c : Nat) (st : AdvState)
    (hc : c ≤ 0x10FFFF) (h : LineInv st.line st.widths) :
    LineInv (appendStep w c st).line (appendStep w c st).widths := by
  obtain ⟨cps, hv, hl, hw⟩ := h
  refine ⟨cps ++ [c], ?_, ?_, ?_⟩
  · intro x hx
    rcases List.mem_append.mp hx with hx | hx
    · exact hv x hx
    · simp at hx
      subst hx
      exact hc
  · show append_utf8 c st.line = _
    rw [append_utf8_split, hl]
    simp
  · show (_ :: st.widths).length = _
    simp [hw]

lemma LineInv_backspaceStep (st : AdvState) (h : LineInv st.line st.widths) :
    LineInv (backspaceStep st).line (backspaceStep st).widths := by
  obtain ⟨cps, hv, hl, hw⟩ := h
  unfold backspaceStep
  split
  · exact ⟨cps, hv, hl, hw⟩
  · exact backspaceLoop_inv st.widths cps st.line hv hl hw

lemma runAdvanced_LineInv_aux (w : Nat → Int) :
    ∀ n (inputs : List Nat) (st : AdvState), inputs.length ≤ n →
      (∀ u ∈ inputs, u ≤ 0x10FFFF) →
      LineInv st.line st.widths →
      LineInv ((runAdvanced w inputs st).1).line
        ((runAdvanced w inputs st).1).widths := by
  intro n
  induction n with
  | zero =>
    intro inputs st h hval hinv
    have he : inputs = [] := List.eq_nil_of_length_eq_zero (Nat.le_zero.mp h)
    subst he
    rw [runAdvanced_nil]
    exact hinv
  | succ n ih =>
    intro inputs st h hval hinv
    match inputs with
    | [] =>
      rw [runAdvanced_nil]
      exact hinv
    | c :: rest =>
      simp only [List.length_cons] at h
      rw [runAdvanced_cons]
      split
      · exact hinv
      · split
        · exact hinv
        · split
          · apply ih _ _ (le_trans (escRemainder_length_le rest) (by omega))
            · intro u hu
              exact hval u (List.mem_cons_of_mem _ (mem_escRemainder hu))
            · exact LineInv_tailCheck _ (LineInv_clearSpecial _ hinv)
          · split
            · apply ih _ _ (by omega)
                (fun u hu => hval u (List.mem_cons_of_mem _ hu))
              exact LineInv_tailCheck _
                (LineInv_backspaceStep _ (LineInv_clearSpecial _ hinv))
            · apply ih _ _ (by omega)
                (fun u hu => hval u (List.mem_cons_of_mem _ hu))
              exact LineInv_tailCheck _
                (LineInv_appendStep w c _ (hval c (by simp))
                  (LineInv_clearSpecial _ hinv))

-- Ordinary-unit runs -------------------------------------------------------

lemma run_append_unfold (w : Nat → Int) (c : Nat) (rest : List Nat)
    (st : AdvState) (h : Ordinary c) :
    runAdvanced w (c :: rest) st
      = runAdvanced w rest (ordinaryStep w c st) := by
  obtain ⟨h13, h10, h4, h27, h8, h127⟩ := h
  rw [runAdvanced_cons, if_neg (by tauto), if_neg h4, if_neg h27,
    if_neg (by tauto)]
  rfl

lemma run_backspace_unfold (w : Nat → Int) (rest : List Nat) (st : AdvState) :
    runAdvanced w (8 :: rest) st
      = runAdvanced w rest (tailCheck (backspaceStep (clearSpecial st))) := by
  rw [runAdvanced_cons, if_neg (by decide : ¬((8:Nat) = 13 ∨ (8:Nat) = 10)),
    if_neg (by decide : ¬((8:Nat) = 4)), if_neg (by decide : ¬((8:Nat) = 27)),
    if_pos (by decide : ((8:Nat) = 8 ∨ (8:Nat) = 127))]

lemma run_appends (w : Nat → Int) (cps suffix : List Nat) (st : AdvState)
    (h : ∀ u ∈ cps, Ordinary u) :
    runAdvanced w (cps ++ suffix) st
      = runAdvanced w suffix (applyAppends w cps st) := by
  induction cps generalizing st with
  | nil => simp [applyAppends]
  | cons a as ih =>
    rw [List.cons_append, run_append_unfold w a _ _ (h a (by simp)),
      ih _ (fun u hu => h u (by simp [hu]))]
    rfl

lemma backspaceStep_pop (st : AdvState) (wn : Nat) (ws l : List Nat) (c : Nat)
    (hc : c ≤ 0x10FFFF) (hwn : wn ≠ 0)
    (hline : st.line = l ++ append_utf8 c []) (hw : st.widths = wn :: ws) :
    (backspaceStep st).line = l ∧ (backspaceStep st).widths = ws := by
  unfold backspaceStep
  rw [hw, if_neg (by simp), hline]
  simp only [backspaceLoop]
  rw [if_neg (fun hx => hwn hx.1)]
  exact ⟨pop_back_append_enc l c hc, rfl⟩

lemma ordinaryStep_line (w : Nat → Int) (u : Nat) (st : AdvState) :
    (ordinaryStep w u st).line = st.line ++ append_utf8 u [] := by
  unfold ordinaryStep
  rw [tailCheck_line]
  show append_utf8 u (clearSpecial st).line = _
  rw [clearSpecial_line, append_utf8_split]

lemma ordinaryStep_widths (w : Nat → Int) (u : Nat) (st : AdvState) :
    (ordinaryStep w u st).widths
      = (if w u < 0 then 0 else (w u).toNat) :: st.widths := by
  unfold ordinaryStep
  rw [tailCheck_widths]
  show (if w u < 0 then 0 else (w u).toNat) :: (clearSpecial st).widths = _
  rw [clearSpecial_widths]

lemma single_backspace_undo (w : Nat → Int) (c : Nat) (st : AdvState)
    (hord : Ordinary c) (hc : c ≤ 0x10FFFF)
    (hwn : (if w c < 0 then 0 else (w c).toNat) ≠ 0) :
    (runAdvanced w [c, 8] st).1.line = st.line
    ∧ (runAdvanced w [c, 8] st).1.widths = st.widths := by
  rw [run_append_unfold w c [8] st hord, run_backspace_unfold, runAdvanced_nil]
  have hpop := backspaceStep_pop (clearSpecial (ordinaryStep w c st))
    (if w c < 0 then 0 else (w c).toNat) st.widths st.line c hc hwn
    (by rw [clearSpecial_line, ordinaryStep_line])
    (by rw [clearSpecial_widths, ordinaryStep_widths])
  exact ⟨by rw [tailCheck_line, hpop.1], by rw [tailCheck_widths, hpop.2]⟩

-- Claim theorems -----------------------------------------------------------

/-- Claim C1, counterexample: appending `a` then U+0301 (combining accent,
display width 0) and issuing one backspace leaves an empty Line and
WidthStack, not the state after appending only `a` — the backspace loop
keeps popping while the popped width was zero, so the base character is
erased together with the zero-width mark. -/
theorem backspace_zero_width_counterexample :
    (runAdvanced wCombining [97, 0x301, 8] (stInit csInit)).1.line = []
    ∧ (runAdvanced wCombining [97] (stInit csInit)).1.line = [97]
    ∧ (runAdvanced wCombining [97] (stInit csInit)).1.widths = [1]
    ∧ ¬((runAdvanced wCombining [97, 0x301, 8] (stInit csInit)).1.line
          = (runAdvanced wCombining [97] (stInit csInit)).1.line
        ∧ (runAdvanced wCombining [97, 0x301, 8] (stInit csInit)).1.widths
          = (runAdvanced wCombining [97] (stInit csInit)).1.widths) := by
  have h1 : runAdvanced wCombining [97, 0x301, 8] (stInit csInit)
      = (ordinaryStep wCombining 0x301
          (ordinaryStep wCombining 97 (stInit csInit))
          |> clearSpecial |> backspaceStep |> tailCheck, true) := by
    rw [run_append_unfold wCombining 97 [0x301, 8] (stInit csInit) (by decide),
      run_append_unfold wCombining 0x301 [8] _ (by decide),
      run_backspace_unfold, runAdvanced_nil]
  have h2 : runAdvanced wCombining [97] (stInit csInit)
      = (ordinaryStep wCombining 97 (stInit csInit), true) := by
    rw [run_append_unfold wCombining 97 [] (stInit csInit) (by decide),
      runAdvanced_nil]
  rw [h1, h2]
  decide

/-- Claim C1, amended: after appending N ordinary in-range code points and
issuing one backspace, Line and WidthStack equal the state after appending
only the first N−1, for every N ≥ 1, provided the Nth code point's
(clamped) display width is nonzero.  (When it is zero the backspace also
removes preceding entries, see the counterexample.) -/
theorem backspace_undoes_positive_width_append (w : Nat → Int)
    (cps : List Nat) (c : Nat) (st : AdvState)
    (hcps : ∀ u ∈ cps, Ordinary u) (hord : Ordinary c) (hc : c ≤ 0x10FFFF)
    (hwn : (if w c < 0 then 0 else (w c).toNat) ≠ 0) :
    (runAdvanced w (cps ++ [c, 8]) st).1.line
      = (runAdvanced w cps st).1.line
    ∧ (runAdvanced w (cps ++ [c, 8]) st).1.widths
      = (runAdvanced w cps st).1.widths := by
  rw [run_appends w cps [c, 8] st hcps,
    show runAdvanced w cps st = runAdvanced w (cps ++ []) st by
      rw [List.append_nil],
    run_appends w cps [] st hcps, runAdvanced_nil]
  exact single_backspace_undo w c (applyAppends w cps st) hord hc hwn

/-- Witness for the amended C1 theorem at `cps = [98]`, `c = 97` with a
width-1 oracle. -/
theorem backspace_undoes_positive_width_append_witness :
    (runAdvanced wCombining ([98] ++ [97, 8]) (stInit csInit)).1.line
      = (runAdvanced wCombining [98] (stInit csInit)).1.line
    ∧ (runAdvanced wCombining ([98] ++ [97, 8]) (stInit csInit)).1.widths
      = (runAdvanced wCombining [98] (stInit csInit)).1.widths :=
  backspace_undoes_positive_width_append wCombining [98] 97 (stInit csInit)
    (by decide) (by decide) (by decide) (by decide)

/-- Claim C2: typing `a`, `b`, `\` then newline returns the text
`"ab\n"` — the trailing backslash is removed and an embedded newline
appended — and the returned "more input expected" boolean is the negation
of the MultilineFlag the read started with. -/
theorem advanced_backslash_continuation (w : Nat → Int) (cs : ConsoleSt) :
    (console_readline_advanced w [97, 98, 92, 10] cs).1 = [97, 98, 10]
    ∧ (console_readline_advanced w [97, 98, 92, 10] cs).2.1
        = !cs.multiline := by
  constructor <;>
    simp [console_readline_advanced, runAdvanced_cons, runAdvanced_nil,
      clearSpecial, tailCheck, appendStep, append_utf8, resolveLine,
      setMode_multiline]

/-- Claim C3: with MultilineFlag true, `ab/` + newline returns `"ab"` with
"more input expected" false; a bare `/` + newline returns an empty line
with "more input expected" false; and when the line left after removing
the trailing `/` is exactly one space, it is cleared entirely (shown both
through the resolution step and end to end on input `␣/` + newline). -/
theorem advanced_slash_soft_marker (w : Nat → Int) (m : Mode) (a : Bool)
    (ws : List Nat) (cs2 : ConsoleSt) (e : Bool) :
    (console_readline_advanced w [97, 98, 47, 10] ⟨true, m, a⟩).1 = [97, 98]
    ∧ (console_readline_advanced w [97, 98, 47, 10] ⟨true, m, a⟩).2.1 = false
    ∧ (console_readline_advanced w [47, 10] ⟨true, m, a⟩).1 = []
    ∧ (console_readline_advanced w [47, 10] ⟨true, m, a⟩).2.1 = false
    ∧ resolveLine ⟨[32, 47], ws, true, cs2⟩ e = ([], false, cs2)
    ∧ (console_readline_advanced w [32, 47, 10] ⟨true, m, a⟩).1 = []
    ∧ (console_readline_advanced w [32, 47, 10] ⟨true, m, a⟩).2.1 = false := by
  refine ⟨?_, ?_, ?_, ?_, ?_, ?_, ?_⟩ <;>
    simp [console_readline_advanced, runAdvanced_cons, runAdvanced_nil,
      clearSpecial, tailCheck, appendStep, append_utf8, resolveLine,
      setMode_multiline]

/-- Claim C4: decoding the UTF-8 byte sequence produced by the encoder
for any code point in 0x00–0x10FFFF outside the surrogate range yields
the code point back. -/
theorem utf8_round_trip (cp : Nat) (h1 : cp ≤ 0x10FFFF)
    (h2 : ¬(0xD800 ≤ cp ∧ cp ≤ 0xDFFF)) :
    decode_utf8 (append_utf8 cp []) = some cp := by
  by_cases hc1 : cp ≤ 0x7F
  · simp only [append_utf8, if_pos hc1, List.nil_append, decode_utf8]
  · by_cases hc2 : cp ≤ 0x7FF
    · simp only [append_utf8, if_neg hc1, if_pos hc2, List.nil_append]
      rw [shiftRight_6, and_mask_31, and_mask_63,
        or_192 _ (Nat.mod_lt _ (by norm_num)),
        or_128 _ (Nat.mod_lt _ (by norm_num))]
      simp only [decode_utf8]
      split
      · simp only [Option.some.injEq]
        omega
      · rename_i hcond
        exact absurd (by omega) hcond
    · by_cases hc3 : cp ≤ 0xFFFF
      · simp only [append_utf8, if_neg hc1, if_neg hc2, if_pos hc3,
          List.nil_append]
        rw [shiftRight_12, shiftRight_6, and_mask_15, and_mask_63, and_mask_63,
          or_224 _ (Nat.mod_lt _ (by norm_num)),
          or_128 _ (Nat.mod_lt _ (by norm_num)),
          or_128 _ (Nat.mod_lt _ (by norm_num))]
        simp only [decode_utf8]
        split
        · simp only [Option.some.injEq]
          omega
        · rename_i hcond
          exact absurd (by omega) hcond
      · simp only [append_utf8, if_neg hc1, if_neg hc2, if_neg hc3,
          if_pos h1, List.nil_append]
        rw [shiftRight_18, shiftRight_12, shiftRight_6,
          and_mask_7, and_mask_63, and_mask_63, and_mask_63,
          or_240 _ (Nat.mod_lt _ (by norm_num)),
          or_128 _ (Nat.mod_lt _ (by norm_num)),
          or_128 _ (Nat.mod_lt _ (by norm_num)),
          or_128 _ (Nat.mod_lt _ (by norm_num))]
        simp only [decode_utf8]
        split
        · simp only [Option.some.injEq]
          omega
        · rename_i hcond
          exact absurd (by omega) hcond

/-- Witness for C4 at U+1F600. -/
theorem utf8_round_trip_witness :
    decode_utf8 (append_utf8 0x1F600 []) = some 0x1F600 :=
  utf8_round_trip 0x1F600 (by decide) (by decide)

/-- Claim C5: on a 16-bit wide-character platform, a high surrogate
followed by a valid low surrogate decodes to exactly the
supplementary-plane code point the pair encodes (which lies in
0x10000–0x10FFFF), and a high surrogate followed by a non-matching unit
decodes to U+FFFD. -/
theorem getchar32_surrogate_pair (hi lo u : Nat) (rest rest' : List Nat)
    (h1 : 0xD800 ≤ hi) (h2 : hi ≤ 0xDBFF)
    (h3 : 0xDC00 ≤ lo) (h4 : lo ≤ 0xDFFF)
    (h5 : ¬(0xDC00 ≤ u ∧ u ≤ 0xDFFF)) :
    getchar32_16 (hi :: lo :: rest) =
      some ((hi - 0xD800) * 0x400 + (lo - 0xDC00) + 0x10000, rest)
    ∧ 0x10000 ≤ (hi - 0xD800) * 0x400 + (lo - 0xDC00) + 0x10000
    ∧ (hi - 0xD800) * 0x400 + (lo - 0xDC00) + 0x10000 ≤ 0x10FFFF
    ∧ getchar32_16 (hi :: u :: rest') = some (0xFFFD, rest') := by
  refine ⟨?_, by omega, by omega, ?_⟩
  · simp only [getchar32_16]
    rw [if_pos ⟨h1, h2⟩, if_pos ⟨h3, h4⟩]
    rw [shiftLeft_10, and_mask_1023, and_mask_1023]
    have e : hi % 1024 * 1024 + lo % 1024 + 65536
        = (hi - 55296) * 1024 + (lo - 56320) + 65536 := by omega
    rw [e]
  · simp only [getchar32_16]
    rw [if_pos ⟨h1, h2⟩, if_neg h5]

/-- Witness for C5 at the pair encoding U+1F600 and at an invalid low
unit. -/
theorem getchar32_surrogate_pair_witness :
    getchar32_16 [0xD83D, 0xDE00] = some (0x1F600, [])
    ∧ getchar32_16 [0xD83D, 65] = some (0xFFFD, []) := by
  have h := getchar32_surrogate_pair 0xD83D 0xDE00 65 [] []
    (by decide) (by decide) (by decide) (by decide) (by decide)
  exact ⟨h.1.trans (by decide), h.2.2.2⟩

/-- Claim C6: at every point of an advanced-path read (the input units
being decoder outputs, hence in-range), the number of WidthStack entries
equals the number of code points represented in Line. -/
theorem widthstack_matches_codepoints (w : Nat → Int) (inputs : List Nat)
    (cs : ConsoleSt) (hval : ∀ u ∈ inputs, u ≤ 0x10FFFF) :
    countCodepoints ((runAdvanced w inputs ⟨[], [], false, cs⟩).1).line
      = ((runAdvanced w inputs ⟨[], [], false, cs⟩).1).widths.length := by
  have hinv := runAdvanced_LineInv_aux w inputs.length inputs
    ⟨[], [], false, cs⟩ (le_refl _) hval ⟨[], by simp, by simp, by simp⟩
  obtain ⟨cps, hv, hl, hw⟩ := hinv
  rw [hl, hw, countCodepoints_encodeAll cps hv]

/-- Witness for C6 on a run with an escape sequence, a zero-width append
and a backspace. -/
theorem widthstack_matches_codepoints_witness :
    countCodepoints ((runAdvanced wCombining [27, 91, 65, 97, 0x301, 8, 100]
        ⟨[], [], false, csInit⟩).1).line
      = ((runAdvanced wCombining [27, 91, 65, 97, 0x301, 8, 100]
        ⟨[], [], false, csInit⟩).1).widths.length :=
  widthstack_matches_codepoints wCombining [27, 91, 65, 97, 0x301, 8, 100]
    csInit (by decide)

/-- Claim C7: the escape sequence ESC `[` `A` leaves Line and WidthStack
exactly as they were; in general, after ESC then `[` — or after ESC then
a second ESC — everything up to and including the first unit in `A`–`Z`,
`a`–`z` or `~` is consumed and discarded, the run continuing on the rest
from a state with unchanged Line and WidthStack. -/
theorem escape_sequence_discard (w : Nat → Int) (st : AdvState)
    (seq : List Nat) (c : Nat) (rest : List Nat)
    (hseq : ∀ u ∈ seq, ¬escTerm u) (hc : escTerm c) :
    ((runAdvanced w [27, 91, 65] st).1.line = st.line
      ∧ (runAdvanced w [27, 91, 65] st).1.widths = st.widths)
    ∧ runAdvanced w (27 :: 91 :: (seq ++ c :: rest)) st
        = runAdvanced w rest (tailCheck (clearSpecial st))
    ∧ runAdvanced w (27 :: 27 :: (seq ++ c :: rest)) st
        = runAdvanced w rest (tailCheck (clearSpecial st))
    ∧ (tailCheck (clearSpecial st)).line = st.line
    ∧ (tailCheck (clearSpecial st)).widths = st.widths := by
  have hesc : ∀ l : List Nat, escRemainder (91 :: l) = discardEscape l := by
    intro l
    simp [escRemainder]
  have hesc27 : ∀ l : List Nat, escRemainder (27 :: l) = discardEscape l := by
    intro l
    simp [escRemainder]
  refine ⟨?_, ?_, ?_, ?_, ?_⟩
  · have he : runAdvanced w [27, 91, 65] st
        = (tailCheck (clearSpecial st), true) := by
      rw [runAdvanced_cons]
      norm_num [hesc, discardEscape, escTerm, runAdvanced_nil]
    rw [he]
    exact ⟨(tailCheck_line _).trans (clearSpecial_line _),
      (tailCheck_widths _).trans (clearSpecial_widths _)⟩
  · rw [runAdvanced_cons]
    norm_num [hesc]
    rw [discardEscape_append seq c rest hseq hc]
  · rw [runAdvanced_cons]
    norm_num [hesc27]
    rw [discardEscape_append seq c rest hseq hc]
  · exact (tailCheck_line _).trans (clearSpecial_line _)
  · exact (tailCheck_widths _).trans (clearSpecial_widths _)

/-- Witness for C7 with the sequences ESC `[` `5` `A` and
ESC ESC `5` `A`. -/
theorem escape_sequence_discard_witness :
    ((runAdvanced wCombining [27, 91, 65] (stInit csInit)).1.line
        = (stInit csInit).line
      ∧ (runAdvanced wCombining [27, 91, 65] (stInit csInit)).1.widths
        = (stInit csInit).widths)
    ∧ runAdvanced wCombining (27 :: 91 :: ([53] ++ 65 :: [])) (stInit csInit)
        = runAdvanced wCombining [] (tailCheck (clearSpecial (stInit csInit)))
    ∧ runAdvanced wCombining (27 :: 27 :: ([53] ++ 65 :: [])) (stInit csInit)
        = runAdvanced wCombining [] (tailCheck (clearSpecial (stInit csInit)))
    ∧ (tailCheck (clearSpecial (stInit csInit))).line = (stInit csInit).line
    ∧ (tailCheck (clearSpecial (stInit csInit))).widths
        = (stInit csInit).widths :=
  escape_sequence_discard wCombining (stInit csInit) [53] 65 []
    (by decide) (by decide)

/-- Claim C8: in the width probe (negative expected width, terminal
available), if the two cursor-position replies do not together parse into
exactly four integers, the original estimate is returned unchanged. -/
theorem put_codepoint_probe_fallback (utf8 : List Nat) (expected : Int)
    (c1 c2 : Nat) (p1 p2 : Int × Int) (ws : Int)
    (hneg : expected < 0) (hcount : c1 + c2 ≠ 4) :
    put_codepoint utf8 expected true c1 p1 c2 p2 ws = expected := by
  simp only [put_codepoint]
  rw [if_neg (by simp; omega), if_pos hcount]

/-- Witness for C8: both parses failed (0 integers each). -/
theorem put_codepoint_probe_fallback_witness :
    put_codepoint [65] (-1) true 0 (1, 1) 0 (1, 1) 80 = -1 :=
  put_codepoint_probe_fallback [65] (-1) 0 0 (1, 1) (1, 1) 80
    (by decide) (by decide)

/-- Claim C9: in simple mode a failed whole-line read requests the ERROR
display mode, leaves the line cleared, and returns false — distinguishable
from a successful read of an empty line, which returns true. -/
theorem simple_read_failure (ctrl : Option Nat) (cs : ConsoleSt) (ml : Bool)
    (m : Mode) :
    console_readline_simple none ctrl cs
      = (false, [], console_set_display_mode Mode.error cs)
    ∧ (console_readline_simple none ctrl ⟨ml, m, true⟩).2.2.mode = Mode.error
    ∧ (console_readline_simple (some []) ctrl cs).1 = true := by
  refine ⟨?_, ?_, ?_⟩
  · simp [console_readline_simple, console_input_string]
  · by_cases hm : m = Mode.error <;>
      simp [console_readline_simple, console_input_string,
        console_set_display_mode, hm]
  · simp [console_readline_simple, console_input_string]

/-- Claim C10: the advanced readline path never modifies the persistent
MultilineFlag; the control handler toggles it exactly on `m` and preserves
it otherwise, and the simple path modifies it only by delegating to the
control handler on a line ending in ESC. -/
theorem multiline_flag_frame (w : Nat → Int) (inputs : List Nat)
    (cs : ConsoleSt) (ch : Nat) (l : List Nat) (ctrl : Option Nat) :
    ((console_readline_advanced w inputs cs).2.2).multiline = cs.multiline
    ∧ (console_input_control (some ch) cs).2.multiline
        = (if ch = 109 then !cs.multiline else cs.multiline)
    ∧ (console_input_control none cs).2.multiline = cs.multiline
    ∧ ((console_readline_simple (some l) ctrl cs).2.2).multiline
        = (if l ≠ [] ∧ l.getLast? = some 27
            then (console_input_control ctrl cs).2.multiline
            else cs.multiline) := by
  refine ⟨?_, ?_, ?_, ?_⟩
  · simp only [console_readline_advanced]
    rw [resolveLine_cs]
    exact runAdvanced_multiline w inputs ⟨[], [], false, cs⟩
  · by_cases h : ch = 109
    · subst h
      simp [console_input_control, console_input_character]
    · have h1 : (ch : Int) ≠ -1 := by omega
      have h2 : (ch : Int) ≠ 109 := by
        intro hh
        apply h
        omega
      simp [console_input_control, console_input_character, h1, h2, h]
  · simp [console_input_control, console_input_character, setMode_multiline]
  · by_cases hl : l = []
    · subst hl
      simp [console_readline_simple, console_input_string, setMode_multiline]
    · by_cases hg : l.getLast? = some 27
      · simp [console_readline_simple, console_input_string, hl, hg]
      · simp [console_readline_simple, console_input_string, hl, hg]
